import Mathlib

/-!
A verification model of the rule-resolution and entry-formatting engine of
soa2ledger (src/soa2ledger.py): the Entry class with its entry_template and
build_entry_string methods, the filter_rules helper, and the eval_rule
field-extraction wrapper.  Python shapes are embedded as follows: a rule
(a string-valued dict) is an association list of strings, Python None is
Option.none, and a raised exception is Option.none in a result position.
-/

/-- A user rule: a string-keyed mapping, as read from the rules ini file. -/
abbrev Rule := List (String × String)

/-- Python dict lookup rule.get(key): the value when the key is present,
None otherwise. -/
def ruleGet (r : Rule) (k : String) : Option String :=
  List.lookup k r

/-- Python str.replace of a period by a comma, as written in the source. -/
def pyReplace (s : String) : String :=
  String.mk (s.data.map (fun c => if c = '.' then ',' else c))

/-- Python f-string rendering of a value that may be None. -/
def pyStr : Option String → String
  | none => "None"
  | some s => s

/-- The attribute state of one Entry object, after construction.  The two
account attributes are Option String: none models the attribute holding
Python None (calling .startswith on it raises AttributeError, while an
f-string renders it as the text None). -/
structure EntrySt where
  book_date : String
  val_date : String
  amount : String
  currency : String
  creditor : String
  debitor : String
  subject : List String
  title : String
  creditor_acc : Option String
  debitor_acc : Option String
  def_asset_acc : Option String
  deriving DecidableEq

/-- Entry.init, given the strings the per-field eval_rule extractions
produced: fields are stored, the currency string has its periods replaced
by commas, the title starts out as the creditor, and both account
attributes start out unset. -/
def entryInit (book_date val_date amount currencyRaw creditor debitor : String)
    (subject : List String) (def_asset_acc : Option String) : EntrySt :=
  { book_date := book_date
    val_date := val_date
    amount := amount
    currency := pyReplace currencyRaw
    creditor := creditor
    debitor := debitor
    subject := subject
    title := creditor
    creditor_acc := none
    debitor_acc := none
    def_asset_acc := def_asset_acc }

/-- The filter_rules helper of build_entry_string: keeps the rules where
the key is missing or maps to the given value (rule.get(key, val) == val). -/
def filter_rules (rules : List Rule) (key val : String) : List Rule :=
  rules.filter (fun r => ((ruleGet r key).getD val) == val)

/-- The single-quote character. -/
def quoteCh : Char := Char.ofNat 39

/-- The backslash character. -/
def backslashCh : Char := Char.ofNat 92

/-- Drops leading spaces. -/
def skipSpaces (l : List Char) : List Char :=
  l.dropWhile (fun c => c == ' ')

/-- Reads a single-quoted Python string literal containing no backslash
(so its evaluated value is its spelled body). -/
def parseStrLit : List Char → Option (String × List Char)
  | c :: r =>
    if c == quoteCh then
      let body := r.takeWhile (fun d => d != quoteCh)
      let rest := r.dropWhile (fun d => d != quoteCh)
      match rest with
      | c2 :: r2 =>
        if (c2 == quoteCh) && body.all (fun d => d != backslashCh) then
          some (String.mk body, r2)
        else none
      | [] => none
    else none
  | [] => none

/-- A nonempty all-digit run. -/
def digitsOk (l : List Char) : Bool :=
  !l.isEmpty && l.all Char.isDigit

/-- A digit run legal as a Python int literal: no leading zero except the
single digit zero itself. -/
def intPartOk (l : List Char) : Bool :=
  digitsOk l && (l == ['0'] || !(l.headD '0' == '0'))

/-- Reads a Python numeric literal inside an evaluated split list,
restricted to the canonical spellings for which str(eval(lit)) returns the
literal text itself: ints without leading zeros, and floats of magnitude at
least one ten-thousandth with at most sixteen digits and no redundant
leading or trailing zeros.  Exotic but legal literals whose repr differs
from their spelling are treated as parse failures. -/
def parseNumLit (l : List Char) : Option (String × List Char) :=
  let (neg, l1) := match l with
    | '-' :: r => (true, r)
    | _ => (false, l)
  let ip := l1.takeWhile Char.isDigit
  let r1 := l1.dropWhile Char.isDigit
  match r1 with
  | '.' :: r2 =>
    let fp := r2.takeWhile Char.isDigit
    let r3 := r2.dropWhile Char.isDigit
    if intPartOk ip && digitsOk fp && (fp == ['0'] || !(fp.getLastD '0' == '0'))
        && decide (ip.length + fp.length ≤ 16)
        && !(ip == ['0'] && fp.take 4 == ['0', '0', '0', '0']) then
      some (String.mk ((if neg then ['-'] else []) ++ ip ++ '.' :: fp), r3)
    else none
  | _ =>
    if intPartOk ip && !(neg && ip == ['0']) then
      some (String.mk ((if neg then ['-'] else []) ++ ip), r1)
    else none

/-- One inner [account, number] pair of a split literal. -/
def parseInner (l : List Char) : Option ((String × String) × List Char) :=
  match skipSpaces l with
  | '[' :: r1 =>
    match parseStrLit (skipSpaces r1) with
    | some (name, r2) =>
      match skipSpaces r2 with
      | ',' :: r3 =>
        match parseNumLit (skipSpaces r3) with
        | some (num, r4) =>
          match skipSpaces r4 with
          | ']' :: r5 => some ((name, num), r5)
          | _ => none
        | none => none
      | _ => none
    | none => none
  | _ => none

/-- Comma-separated inner pairs, with fuel for termination. -/
def parseInners : Nat → List Char → Option (List (String × String) × List Char)
  | 0, _ => none
  | fuel + 1, l =>
    match parseInner l with
    | some (p, r) =>
      match skipSpaces r with
      | ',' :: r2 =>
        match parseInners fuel r2 with
        | some (ps, r3) => some (p :: ps, r3)
        | none => none
      | other => some ([p], other)
    | none => none

/-- Models eval of a creditor-account string that the source has found to
start with two open brackets: accepts exactly a Python literal list of
[string, number] pairs (numbers in the canonical spelling of parseNumLit)
and yields the (account, sub-amount text) pairs the render loop reads.
Any other string - including evaluable expressions that are not plain
literals of this shape - is treated as a raised exception. -/
def parseSplit (s : String) : Option (List (String × String)) :=
  match skipSpaces s.data with
  | '[' :: r =>
    match parseInners (s.data.length + 1) r with
    | some (ps, r2) =>
      match skipSpaces r2 with
      | ']' :: r3 => if (skipSpaces r3).isEmpty then some ps else none
      | _ => none
    | none => none
  | _ => none

/-- Python str.startswith: character-wise prefix test. -/
def pyStartsWith (s pre : String) : Bool :=
  pre.data.isPrefixOf s.data

/-- The date-and-title first line of entry_template. -/
def dateLine (e : EntrySt) : String :=
  if e.book_date == e.val_date then
    e.book_date ++ " " ++ e.title ++ "\n"
  else
    e.book_date ++ "=" ++ e.val_date ++ " " ++ e.title ++ "\n"

/-- The creditor-side posting lines of entry_template as (account, amount
literal) pairs: one pair per split component when the account string starts
with two open brackets (each sub-amount getting its periods replaced by
commas, modelling str(line[1]).replace), else the single account paired
with the raw amount.  none models the AttributeError on a None creditor
account and a failing eval of a split string. -/
def creditorPostings (e : EntrySt) : Option (List (String × String)) :=
  match e.creditor_acc with
  | none => none
  | some c =>
    if pyStartsWith c "[[" then
      (parseSplit c).map (List.map (fun p => (p.1, pyReplace p.2)))
    else
      some [(c, e.amount)]

/-- One rendered posting line: indent, account, indent, currency, space,
amount literal, newline. -/
def postingLine (ind currency : String) (p : String × String) : String :=
  ind ++ p.1 ++ ind ++ currency ++ " " ++ p.2 ++ "\n"

/-- Concatenation of a list of strings. -/
def concatStrs : List String → String
  | [] => ""
  | s :: ss => s ++ concatStrs ss

/-- Entry.entry_template: the date line, the creditor posting line or
lines, then the debitor line carrying a minus sign before the raw amount
and no trailing newline.  none models a raise in the Python original. -/
def entry_template (e : EntrySt) (ledger_indent : Nat) : Option String :=
  let ind := String.mk (List.replicate ledger_indent ' ')
  (creditorPostings e).map (fun ls =>
    dateLine e ++ concatStrs (ls.map (postingLine ind e.currency)) ++
      ind ++ pyStr e.debitor_acc ++ ind ++ e.currency ++ " -" ++ e.amount)

/-- The attribute assignments made for one candidate rule in the known
expense and ambiguous branches: title from the rule or else the creditor,
creditor account from the rule (None when absent), debitor account from
the rule or else the default asset account. -/
def resolveMatch (e : EntrySt) (m : Rule) : EntrySt :=
  { e with
      title := (ruleGet m "title").getD e.creditor
      creditor_acc := ruleGet m "cdtr_acc"
      debitor_acc := (ruleGet m "dbtr_acc").orElse (fun _ => e.def_asset_acc) }

/-- The for-loop of the ambiguous branch: resolves each candidate rule in
order and appends its rendering plus a newline, stopping with none when a
rendering raises (the state keeping the fields set in that iteration, as a
Python exception would leave them). -/
def ambLoop (e : EntrySt) (ledger_indent : Nat) (acc : String) :
    List Rule → EntrySt × Option String
  | [] => (e, some acc)
  | m :: ms =>
    match entry_template (resolveMatch e m) ledger_indent with
    | some t => ambLoop (resolveMatch e m) ledger_indent (acc ++ t ++ "\n") ms
    | none => (resolveMatch e m, none)

/-- The account-scoped rules: the local account_rules of
build_entry_string. -/
def accountRules (rules : List Rule) (account : String) : List Rule :=
  filter_rules rules "account" account

/-- The local matches_dbtr of build_entry_string. -/
def debitorMatches (e : EntrySt) (account : String) (rules : List Rule) : List Rule :=
  filter_rules (accountRules rules account) "dbtr" e.debitor

/-- The local matches_cdtr of build_entry_string. -/
def creditorMatches (e : EntrySt) (account : String) (rules : List Rule) : List Rule :=
  filter_rules (debitorMatches e account rules) "cdtr" e.creditor

/-- Entry.build_entry_string: returns the updated attribute state together
with the produced entry string, none standing for a raised exception.  The
options dict is passed as its three used components: the selected account
name, the rule list, and the ledger indent width. -/
def build_entry_string (e : EntrySt) (account : String) (rules : List Rule)
    (ledger_indent : Nat) : EntrySt × Option String :=
  match debitorMatches e account rules with
  | [] =>
    let e' := { e with
        title := e.debitor
        creditor_acc := e.def_asset_acc
        debitor_acc := some "Income:???" }
    (e', entry_template e' ledger_indent)
  | [m] =>
    let e' := { e with
        title := (ruleGet m "title").getD e.creditor
        debitor_acc := ruleGet m "dbtr_acc"
        creditor_acc := (ruleGet m "cdtr_acc").orElse (fun _ => e.def_asset_acc) }
    (e', entry_template e' ledger_indent)
  | _ :: _ :: _ =>
    match creditorMatches e account rules with
    | [] =>
      let e' := { e with
          creditor_acc := some "Expenses:???"
          debitor_acc := e.def_asset_acc }
      (e', entry_template e' ledger_indent)
    | [m] =>
      let e' := resolveMatch e m
      (e', entry_template e' ledger_indent)
    | c1 :: c2 :: crest =>
      ambLoop e ledger_indent ";\n; Multiple matches. Pick one\n" (c1 :: c2 :: crest)

/-- The five resolution outcomes of the conceptual state machine. -/
inductive Outcome where
  | unmatchedIncoming
  | singleIncomeMatch
  | unmatchedExpense
  | singleExpenseMatch
  | ambiguous
  deriving DecidableEq

/-- Which of the five resolution branches build_entry_string takes. -/
def outcomeOf (e : EntrySt) (account : String) (rules : List Rule) : Outcome :=
  match debitorMatches e account rules with
  | [] => Outcome.unmatchedIncoming
  | [_] => Outcome.singleIncomeMatch
  | _ :: _ :: _ =>
    match creditorMatches e account rules with
    | [] => Outcome.unmatchedExpense
    | [_] => Outcome.singleExpenseMatch
    | _ :: _ :: _ => Outcome.ambiguous

/-- The outcome of evaluating one extraction expression against the raw
row: the expressions are arbitrary user-configured Python, so only the
shape of the result is modelled - a produced string, a raised
AttributeError, or any other raised error. -/
inductive EvalResult where
  | ok (v : String)
  | attrError
  | otherError
  deriving DecidableEq

/-- Entry.eval_rule.  The argument models options.get(rule_for): none when
the expression for the field is missing (whereupon eval of Python None
raises an uncaught TypeError), some r when an expression is present and
evaluating it has outcome r.  The except clause catches only
AttributeError, turning it into the literal string None; every other
failure propagates, modelled by none in the result. -/
def eval_rule : Option EvalResult → Option String
  | none => none
  | some (EvalResult.ok v) => some v
  | some EvalResult.attrError => some "None"
  | some EvalResult.otherError => none

/-- Digit-run value in base ten. -/
def natOfDigits (l : List Char) : Nat :=
  l.foldl (fun a c => 10 * a + (c.toNat - 48)) 0

/-- Reads an unsigned decimal literal with an optional fractional part
separated by a period or a comma, as a rational. -/
def parseDecChars (l : List Char) : Option ℚ :=
  let ip := l.takeWhile Char.isDigit
  let r1 := l.dropWhile Char.isDigit
  if ip.isEmpty then none
  else
    match r1 with
    | [] => some (natOfDigits ip : ℚ)
    | c :: fp =>
      if (c == '.' || c == ',') && !fp.isEmpty && fp.all Char.isDigit then
        some ((natOfDigits ip : ℚ) + (natOfDigits fp : ℚ) / (10 : ℚ) ^ fp.length)
      else none

/-- Reads a posting amount literal, allowing one leading minus sign. -/
def parseAmt (s : String) : Option ℚ :=
  match s.data with
  | '-' :: rest => (parseDecChars rest).map (fun q => -q)
  | l => parseDecChars l

/-- All posting (account, amount literal) pairs of a rendered entry: the
creditor-side lines followed by the debitor line. -/
def entryPostings (e : EntrySt) : Option (List (String × String)) :=
  (creditorPostings e).map (fun ls => ls ++ [(pyStr e.debitor_acc, "-" ++ e.amount)])

/-- The numeric values of a list of posting amount literals, when every
literal parses. -/
def amountsOf : List (String × String) → Option (List ℚ)
  | [] => some []
  | p :: ps =>
    match parseAmt p.2, amountsOf ps with
    | some q, some qs => some (q :: qs)
    | _, _ => none

/-- The sum of the numeric values of the posting amount literals of a
rendered entry, when the entry renders and every literal parses. -/
def postingSum (e : EntrySt) : Option ℚ :=
  match entryPostings e with
  | none => none
  | some ps =>
    match amountsOf ps with
    | none => none
    | some qs => some qs.sum

/-- Whether an optional produced string starts with the given prefix text
(false models the absence of any produced string). -/
def optHasPrefix (o : Option String) (p : String) : Bool :=
  match o with
  | none => false
  | some s => p.data.isPrefixOf s.data

/-- A rule that carries a cdtr_acc entry naming a plain, non-split
account. -/
def plainCdtrAcc (m : Rule) : Bool :=
  match ruleGet m "cdtr_acc" with
  | some c => !(pyStartsWith c "[[")
  | none => false

/-! ### General lemmas about the embedding -/

/-- Rules surviving a filter stage come from the filtered list. -/
theorem mem_of_mem_filter_rules {r : Rule} {rules : List Rule} {key val : String}
    (h : r ∈ filter_rules rules key val) : r ∈ rules :=
  List.mem_of_mem_filter h

/-- Re-resolving over an already resolved state gives the same state: the
per-match assignments only read fields that they never write. -/
theorem resolveMatch_resolveMatch (e : EntrySt) (m0 m : Rule) :
    resolveMatch (resolveMatch e m0) m = resolveMatch e m := rfl

/-- A plain (non-split) creditor account always renders. -/
theorem entry_template_isSome_plain (e : EntrySt) (ind : Nat) (c : String)
    (hc : e.creditor_acc = some c) (hp : pyStartsWith c "[[" = false) :
    (entry_template e ind).isSome = true := by
  simp [entry_template, creditorPostings, hc, hp]

/-- The ambiguous-branch loop, when every candidate renders, produces the
accumulator followed by each candidate's rendering and a newline, in list
order. -/
theorem ambLoop_spec (ms : List Rule) : ∀ (e : EntrySt) (ind : Nat) (acc : String),
    (∀ m ∈ ms, (entry_template (resolveMatch e m) ind).isSome = true) →
    (ambLoop e ind acc ms).snd
      = some (acc ++ concatStrs (ms.map
          (fun m => ((entry_template (resolveMatch e m) ind).getD "") ++ "\n"))) := by
  induction ms with
  | nil =>
    intro e ind acc _
    simp [ambLoop, concatStrs, String.append_empty]
  | cons m ms ih =>
    intro e ind acc h
    obtain ⟨t, ht⟩ := Option.isSome_iff_exists.mp (h m (List.mem_cons_self m ms))
    have hrest : ∀ m' ∈ ms,
        (entry_template (resolveMatch (resolveMatch e m) m') ind).isSome = true := by
      intro m' hm'
      rw [resolveMatch_resolveMatch]
      exact h m' (List.mem_cons_of_mem m hm')
    have hstep := ih (resolveMatch e m) ind (acc ++ t ++ "\n") hrest
    unfold ambLoop
    rw [ht, hstep]
    simp only [resolveMatch_resolveMatch]
    simp [concatStrs, ht, String.append_assoc]

/-- A string whose character data reads as an unsigned decimal also reads
as a posting amount. -/
theorem parseAmt_of_parseDecChars (s : String) (a : ℚ)
    (h : parseDecChars s.data = some a) : parseAmt s = some a := by
  unfold parseAmt
  split
  · rename_i rest heq
    rw [heq] at h
    simp [parseDecChars, List.takeWhile] at h
  · exact h

/-- Prepending a minus sign to an unsigned decimal negates its reading. -/
theorem parseAmt_neg (s : String) (a : ℚ)
    (h : parseDecChars s.data = some a) : parseAmt ("-" ++ s) = some (-a) := by
  have hdata : ("-" ++ s).data = '-' :: s.data := by
    rw [String.data_append]
    rfl
  unfold parseAmt
  rw [hdata]
  simp [h]

/-- Reading the amounts of a concatenation of posting lists. -/
theorem amountsOf_append (l1 l2 : List (String × String)) :
    amountsOf (l1 ++ l2)
      = (amountsOf l1).bind (fun a => (amountsOf l2).map (fun b => a ++ b)) := by
  induction l1 with
  | nil =>
    cases h2 : amountsOf l2 <;> simp [amountsOf, h2]
  | cons p ps ih =>
    cases hp : parseAmt p.2 <;>
      cases hps : amountsOf ps <;>
        cases h2 : amountsOf l2 <;>
          simp_all [amountsOf]

/-- Whether the first list occurs contiguously inside the second. -/
def hasSub (pat : List Char) : List Char → Bool
  | [] => pat.isEmpty
  | c :: rest => pat.isPrefixOf (c :: rest) || hasSub pat rest

/-- A list is a prefix of itself followed by anything. -/
theorem isPrefixOf_append_self (l r : List Char) : l.isPrefixOf (l ++ r) = true := by
  induction l with
  | nil => simp [List.isPrefixOf]
  | cons a as ih => simp [List.isPrefixOf, ih]

/-- A rule passing the plain-cdtr_acc test names a plain account. -/
theorem plainCdtrAcc_spec (m : Rule) (h : plainCdtrAcc m = true) :
    ∃ c, ruleGet m "cdtr_acc" = some c ∧ pyStartsWith c "[[" = false := by
  unfold plainCdtrAcc at h
  split at h
  · rename_i c hc
    exact ⟨c, hc, by simpa using h⟩
  · exact absurd h (by simp)

/-- Agreement of two states on the seven fields resolution never assigns:
book date, value date, amount, currency, creditor, debitor and subject. -/
def sameCore (a b : EntrySt) : Prop :=
  a.book_date = b.book_date ∧ a.val_date = b.val_date ∧ a.amount = b.amount
    ∧ a.currency = b.currency ∧ a.creditor = b.creditor ∧ a.debitor = b.debitor
    ∧ a.subject = b.subject

/-- Core agreement is reflexive. -/
theorem sameCore_refl (a : EntrySt) : sameCore a a :=
  ⟨rfl, rfl, rfl, rfl, rfl, rfl, rfl⟩

/-- Core agreement composes. -/
theorem sameCore_trans {a b c : EntrySt} (h1 : sameCore a b) (h2 : sameCore b c) :
    sameCore a c := by
  obtain ⟨x1, x2, x3, x4, x5, x6, x7⟩ := h1
  obtain ⟨y1, y2, y3, y4, y5, y6, y7⟩ := h2
  exact ⟨x1.trans y1, x2.trans y2, x3.trans y3, x4.trans y4, x5.trans y5,
    x6.trans y6, x7.trans y7⟩

/-- The per-match assignments touch none of the seven frame fields. -/
theorem sameCore_of_resolveMatch (e : EntrySt) (m : Rule) :
    sameCore (resolveMatch e m) e :=
  ⟨rfl, rfl, rfl, rfl, rfl, rfl, rfl⟩

/-- The ambiguous-branch loop touches none of the seven frame fields. -/
theorem ambLoop_sameCore (ms : List Rule) : ∀ (e : EntrySt) (ind : Nat) (acc : String),
    sameCore (ambLoop e ind acc ms).fst e := by
  induction ms with
  | nil =>
    intro e ind acc
    exact sameCore_refl e
  | cons m ms ih =>
    intro e ind acc
    unfold ambLoop
    cases ht : entry_template (resolveMatch e m) ind with
    | none => exact sameCore_of_resolveMatch e m
    | some t =>
      show sameCore (ambLoop (resolveMatch e m) ind (acc ++ t ++ "\n") ms).fst e
      exact sameCore_trans (ih (resolveMatch e m) ind (acc ++ t ++ "\n"))
        (sameCore_of_resolveMatch e m)

/-- Claim C8: resolution and formatting assign only the creditor_acc,
debitor_acc and title fields; book_date, val_date, amount, currency,
creditor, debitor and subject are unchanged by build_entry_string (and
entry_template, being a pure function of the state, changes nothing). -/
theorem C8_frame_fields_unchanged (e : EntrySt) (account : String) (rules : List Rule)
    (ind : Nat) :
    (build_entry_string e account rules ind).fst.book_date = e.book_date
    ∧ (build_entry_string e account rules ind).fst.val_date = e.val_date
    ∧ (build_entry_string e account rules ind).fst.amount = e.amount
    ∧ (build_entry_string e account rules ind).fst.currency = e.currency
    ∧ (build_entry_string e account rules ind).fst.creditor = e.creditor
    ∧ (build_entry_string e account rules ind).fst.debitor = e.debitor
    ∧ (build_entry_string e account rules ind).fst.subject = e.subject := by
  show sameCore (build_entry_string e account rules ind).fst e
  unfold build_entry_string
  cases hd : debitorMatches e account rules with
  | nil => exact ⟨rfl, rfl, rfl, rfl, rfl, rfl, rfl⟩
  | cons m tail =>
    cases tail with
    | nil => exact ⟨rfl, rfl, rfl, rfl, rfl, rfl, rfl⟩
    | cons m2 rest =>
      cases hc : creditorMatches e account rules with
      | nil => exact ⟨rfl, rfl, rfl, rfl, rfl, rfl, rfl⟩
      | cons c1 ct =>
        cases ct with
        | nil => exact sameCore_of_resolveMatch e c1
        | cons c2 cr => exact ambLoop_sameCore (c1 :: c2 :: cr) e ind _

/-- Claim C6: the rule filter returns exactly the order-preserving sublist
of rules that either lack an entry for the key or whose entry equals the
value under plain string equality; a rule missing the key is a wildcard. -/
theorem C6_filter_rules_spec (rules : List Rule) (key val : String) :
    filter_rules rules key val
      = rules.filter (fun r => decide (ruleGet r key = none ∨ ruleGet r key = some val))
    ∧ List.Sublist (filter_rules rules key val) rules := by
  constructor
  · unfold filter_rules
    apply List.filter_congr
    intro r _
    cases h : ruleGet r key with
    | none => simp
    | some v => by_cases hv : v = val <;> simp [hv]
  · exact List.filter_sublist rules

/-- Claim C4: exactly one debitor match among the account-scoped rules
gives the single-income outcome, independent of the creditor: title from
the rule or else the creditor, debitor account from the rule (with no
fallback), creditor account from the rule or else the default asset
account. -/
theorem C4_single_income_match (e : EntrySt) (account : String) (rules : List Rule)
    (ind : Nat) (m : Rule)
    (h : debitorMatches e account rules = [m]) :
    outcomeOf e account rules = Outcome.singleIncomeMatch
    ∧ (build_entry_string e account rules ind).fst.title = (ruleGet m "title").getD e.creditor
    ∧ (build_entry_string e account rules ind).fst.debitor_acc = ruleGet m "dbtr_acc"
    ∧ (build_entry_string e account rules ind).fst.creditor_acc
        = (ruleGet m "cdtr_acc").orElse (fun _ => e.def_asset_acc) := by
  unfold outcomeOf build_entry_string
  rw [h]
  exact ⟨rfl, rfl, rfl, rfl⟩

/-- A transaction for the single-income scenario. -/
def eC4 : EntrySt :=
  entryInit "2024-01-05" "2024-01-05" "100" "EUR" "Me" "Employer" [] (some "Assets:Bank")

/-- The one rule matching the debitor of eC4. -/
def ruleC4 : Rule := [("dbtr", "Employer"), ("dbtr_acc", "Income:Salary")]

/-- A rule set where exactly ruleC4 matches the debitor of eC4, while the
second rule would match the creditor. -/
def rulesC4 : List Rule := [ruleC4, [("dbtr", "Other"), ("cdtr", "Me")]]

/-- Witness for claim C4 at a concrete transaction and rule set. -/
theorem C4_single_income_match_witness :
    outcomeOf eC4 "giro" rulesC4 = Outcome.singleIncomeMatch
    ∧ (build_entry_string eC4 "giro" rulesC4 2).fst.title
        = (ruleGet ruleC4 "title").getD eC4.creditor
    ∧ (build_entry_string eC4 "giro" rulesC4 2).fst.debitor_acc = ruleGet ruleC4 "dbtr_acc"
    ∧ (build_entry_string eC4 "giro" rulesC4 2).fst.creditor_acc
        = (ruleGet ruleC4 "cdtr_acc").orElse (fun _ => eC4.def_asset_acc) :=
  C4_single_income_match eC4 "giro" rulesC4 2 ruleC4 (by decide)

/-- Claim C5: zero debitor matches gives the unmatched-incoming outcome:
title is the debitor, the creditor-side account the configured default
asset account, and the debitor-side account the literal unknown-income
placeholder. -/
theorem C5_unmatched_incoming (e : EntrySt) (account : String) (rules : List Rule)
    (ind : Nat)
    (h : debitorMatches e account rules = []) :
    outcomeOf e account rules = Outcome.unmatchedIncoming
    ∧ (build_entry_string e account rules ind).fst.title = e.debitor
    ∧ (build_entry_string e account rules ind).fst.creditor_acc = e.def_asset_acc
    ∧ (build_entry_string e account rules ind).fst.debitor_acc = some "Income:???" := by
  unfold outcomeOf build_entry_string
  rw [h]
  exact ⟨rfl, rfl, rfl, rfl⟩

/-- The unmatched-incoming scenario of the spec: no rule matches the
debitor Employer GmbH. -/
def eC5 : EntrySt :=
  entryInit "2024-02-01" "2024-02-02" "55" "EUR" "Jane Doe" "Employer GmbH" []
    (some "Assets:Bank")

/-- A rule set with no rule for the debitor of eC5. -/
def rulesC5 : List Rule := [[("dbtr", "ACME"), ("dbtr_acc", "Income:Acme")]]

/-- Witness for claim C5 at a concrete transaction and rule set. -/
theorem C5_unmatched_incoming_witness :
    outcomeOf eC5 "giro" rulesC5 = Outcome.unmatchedIncoming
    ∧ (build_entry_string eC5 "giro" rulesC5 4).fst.title = eC5.debitor
    ∧ (build_entry_string eC5 "giro" rulesC5 4).fst.creditor_acc = eC5.def_asset_acc
    ∧ (build_entry_string eC5 "giro" rulesC5 4).fst.debitor_acc = some "Income:???" :=
  C5_unmatched_incoming eC5 "giro" rulesC5 4 (by decide)

/-- Whenever an entry renders at all, the rendered text starts with the
date line. -/
theorem entry_template_hasPrefix_dateLine (e : EntrySt) (ind : Nat)
    (h : (entry_template e ind).isSome = true) :
    optHasPrefix (entry_template e ind) (dateLine e) = true := by
  cases hcp : creditorPostings e with
  | none => simp [entry_template, hcp] at h
  | some ls =>
    simp only [entry_template, hcp, Option.map_some']
    simp [optHasPrefix, String.data_append, List.append_assoc, isPrefixOf_append_self]

/-- Claim C10: with at least two debitor matches and no creditor match,
the resolver assigns no title, so the resolved state's title is still the
creditor stored at construction and the rendered entry's first line is the
date line carrying that creditor as its title. -/
theorem C10_unmatched_expense_title (bd vd am cur cr db : String)
    (subj : List String) (dflt : Option String)
    (account : String) (rules : List Rule) (ind : Nat)
    (hd : 2 ≤ (debitorMatches (entryInit bd vd am cur cr db subj dflt) account rules).length)
    (hc : creditorMatches (entryInit bd vd am cur cr db subj dflt) account rules = []) :
    outcomeOf (entryInit bd vd am cur cr db subj dflt) account rules
        = Outcome.unmatchedExpense
    ∧ (build_entry_string (entryInit bd vd am cur cr db subj dflt)
        account rules ind).fst.title = cr
    ∧ optHasPrefix
        (build_entry_string (entryInit bd vd am cur cr db subj dflt) account rules ind).snd
        (dateLine (build_entry_string (entryInit bd vd am cur cr db subj dflt)
          account rules ind).fst) = true := by
  rcases hdm : debitorMatches (entryInit bd vd am cur cr db subj dflt) account rules with
    _ | ⟨m1, _ | ⟨m2, rest⟩⟩
  · rw [hdm] at hd
    simp at hd
  · rw [hdm] at hd
    simp at hd
  · unfold outcomeOf build_entry_string
    rw [hdm, hc]
    refine ⟨rfl, rfl, ?_⟩
    exact entry_template_hasPrefix_dateLine
      { entryInit bd vd am cur cr db subj dflt with
          creditor_acc := some "Expenses:???"
          debitor_acc := (entryInit bd vd am cur cr db subj dflt).def_asset_acc }
      ind
      (entry_template_isSome_plain
        { entryInit bd vd am cur cr db subj dflt with
            creditor_acc := some "Expenses:???"
            debitor_acc := (entryInit bd vd am cur cr db subj dflt).def_asset_acc }
        ind "Expenses:???" rfl (by decide))

/-- Two expense rules for one debitor, neither matching the creditor of
the unmatched-expense scenario. -/
def rulesC10 : List Rule :=
  [[("dbtr", "Myself"), ("cdtr", "Supermarket"), ("cdtr_acc", "Expenses:Food")],
   [("dbtr", "Myself"), ("cdtr", "Gym"), ("cdtr_acc", "Expenses:Sport")]]

/-- Witness for claim C10 at a concrete transaction and rule set. -/
theorem C10_unmatched_expense_title_witness :
    outcomeOf (entryInit "2024-03-03" "2024-03-03" "20" "EUR" "CornerShop" "Myself" []
        (some "Assets:Bank")) "giro" rulesC10 = Outcome.unmatchedExpense
    ∧ (build_entry_string (entryInit "2024-03-03" "2024-03-03" "20" "EUR" "CornerShop"
        "Myself" [] (some "Assets:Bank")) "giro" rulesC10 2).fst.title = "CornerShop"
    ∧ optHasPrefix
        (build_entry_string (entryInit "2024-03-03" "2024-03-03" "20" "EUR" "CornerShop"
          "Myself" [] (some "Assets:Bank")) "giro" rulesC10 2).snd
        (dateLine (build_entry_string (entryInit "2024-03-03" "2024-03-03" "20" "EUR"
          "CornerShop" "Myself" [] (some "Assets:Bank")) "giro" rulesC10 2).fst) = true :=
  C10_unmatched_expense_title "2024-03-03" "2024-03-03" "20" "EUR" "CornerShop" "Myself"
    [] (some "Assets:Bank") "giro" rulesC10 2 (by decide) (by decide)

/-- Claim C9 counterexample: a missing extraction expression propagates
(eval of Python None raises TypeError, which the except clause does not
catch) instead of returning the literal placeholder, and so does any
failure other than an AttributeError. -/
theorem C9_missing_expression_raises :
    eval_rule none = none
    ∧ ¬ eval_rule none = some "None"
    ∧ eval_rule (some EvalResult.otherError) = none :=
  ⟨rfl, by decide, rfl⟩

/-- Claim C9 (amended): only an evaluation failing with AttributeError
degrades to the literal placeholder string None; a successful evaluation
returns its value, while a missing expression or any other evaluation
failure propagates out of eval_rule. -/
theorem C9_eval_rule_amended :
    eval_rule (some EvalResult.attrError) = some "None"
    ∧ eval_rule none = none
    ∧ eval_rule (some EvalResult.otherError) = none
    ∧ ∀ v, eval_rule (some (EvalResult.ok v)) = some v :=
  ⟨rfl, rfl, rfl, fun _ => rfl⟩

/-- The decimal-rendering scenario of the spec: amount 123.45, currency
EUR. -/
def eC3 : EntrySt :=
  entryInit "2024-01-02" "2024-01-02" "123.45" "EUR" "Shop" "Me" [] (some "Assets:Bank")

/-- Claim C3 evaluated at the failing input: the period-to-comma replace
is applied to the currency field at construction (a no-op on EUR) and not
to the amount, so the posting lines render EUR 123.45 and the promised
EUR 123,45 appears nowhere in the output. -/
theorem C3_decimal_separator_bug :
    (build_entry_string eC3 "giro" [] 4).snd
      = some "2024-01-02 Me\n    Assets:Bank    EUR 123.45\n    Income:???    EUR -123.45"
    ∧ hasSub ("EUR 123,45").data
        (((build_entry_string eC3 "giro" [] 4).snd.getD "").data) = false
    ∧ hasSub ("EUR 123.45").data
        (((build_entry_string eC3 "giro" [] 4).snd.getD "").data) = true
    ∧ eC3.currency = "EUR" := by
  decide

/-- A transaction of amount 5 whose single matching rule assigns a split
creditor account whose sub-amounts total 3. -/
def eC1 : EntrySt :=
  entryInit "2024-01-02" "2024-01-02" "5" "EUR" "Shop" "Me" [] (some "Assets:Bank")

/-- The rule resolving eC1, with a split creditor account. -/
def ruleC1 : Rule :=
  [("dbtr", "Me"), ("dbtr_acc", "Assets:Bank"), ("cdtr_acc", "[['A', 1], ['B', 2]]")]

/-- Claim C1 counterexample: a resolved, rendered split entry whose posting
amounts sum to minus two rather than zero - the debitor line negates the
transaction amount, not the creditor-side total, and nothing makes the
split sub-amounts balance it. -/
theorem C1_split_unbalanced :
    ((build_entry_string eC1 "giro" [ruleC1] 2).snd).isSome = true
    ∧ postingSum (build_entry_string eC1 "giro" [ruleC1] 2).fst = some (-2)
    ∧ ¬ postingSum (build_entry_string eC1 "giro" [ruleC1] 2).fst = some 0 := by
  have hsnd : ((build_entry_string eC1 "giro" [ruleC1] 2).snd).isSome = true := by decide
  have hep : entryPostings (build_entry_string eC1 "giro" [ruleC1] 2).fst
      = some [("A", "1"), ("B", "2"), ("Assets:Bank", "-5")] := by decide
  have p1 : parseAmt "1" = some ((1 : Nat) : ℚ) := rfl
  have p2 : parseAmt "2" = some ((2 : Nat) : ℚ) := rfl
  have p5 : parseAmt "-5" = some (-((5 : Nat) : ℚ)) := rfl
  have hsum : postingSum (build_entry_string eC1 "giro" [ruleC1] 2).fst = some (-2) := by
    unfold postingSum
    rw [hep]
    simp [amountsOf, p1, p2, p5]
    norm_num
  refine ⟨hsnd, hsum, ?_⟩
  rw [hsum]
  simp

/-- Claim C1 (amended): for an entry with a plain creditor account and an
unsigned decimal amount the postings always balance; for a split creditor
account the debitor line negates the transaction amount, so the postings
balance exactly when the split sub-amounts total the transaction amount -
a condition the formatter does not enforce. -/
theorem C1_balance_amended (e : EntrySt) (a : ℚ) (c : String)
    (hc : e.creditor_acc = some c)
    (ha : parseDecChars e.amount.data = some a) :
    (pyStartsWith c "[[" = false → postingSum e = some 0)
    ∧ (∀ parts qs, pyStartsWith c "[[" = true → parseSplit c = some parts →
        amountsOf (parts.map (fun p => (p.1, pyReplace p.2))) = some qs →
        (postingSum e = some 0 ↔ qs.sum = a)) := by
  have hamt : parseAmt e.amount = some a := parseAmt_of_parseDecChars _ _ ha
  have hneg : parseAmt ("-" ++ e.amount) = some (-a) := parseAmt_neg _ _ ha
  constructor
  · intro hp
    simp [postingSum, entryPostings, creditorPostings, hc, hp, amountsOf, hamt, hneg]
  · intro parts qs hp hsplit hqs
    have happ : amountsOf (parts.map (fun p => (p.1, pyReplace p.2))
        ++ [(pyStr e.debitor_acc, "-" ++ e.amount)]) = some (qs ++ [-a]) := by
      rw [amountsOf_append, hqs]
      simp [amountsOf, hneg]
    simp [postingSum, entryPostings, creditorPostings, hc, hp, hsplit, happ,
      List.sum_append]
    exact add_neg_eq_zero

/-- A resolved entry with amount 3 and a split creditor account whose
sub-amounts 1 and 2 total the amount. -/
def eC1w : EntrySt :=
  { entryInit "2024-01-02" "2024-01-02" "3" "EUR" "Shop" "Me" [] (some "Assets:Bank") with
      creditor_acc := some "[['A', 1], ['B', 2]]"
      debitor_acc := some "Assets:Bank" }

/-- Witness for the amended claim C1 at a concrete split entry. -/
theorem C1_balance_amended_witness :
    postingSum eC1w = some 0 ↔ ([((1 : Nat) : ℚ), ((2 : Nat) : ℚ)].sum = ((3 : Nat) : ℚ)) :=
  (C1_balance_amended eC1w ((3 : Nat) : ℚ) "[['A', 1], ['B', 2]]" rfl rfl).2
    [("A", "1"), ("B", "2")] [((1 : Nat) : ℚ), ((2 : Nat) : ℚ)]
    (by decide) (by decide) rfl

/-- Membership transfer from the debitor-match list to the rule set. -/
theorem mem_rules_of_mem_debitorMatches {m : Rule} {e : EntrySt} {account : String}
    {rules : List Rule} (h : m ∈ debitorMatches e account rules) : m ∈ rules :=
  mem_of_mem_filter_rules (mem_of_mem_filter_rules h)

/-- Membership transfer from the creditor-match list to the rule set. -/
theorem mem_rules_of_mem_creditorMatches {m : Rule} {e : EntrySt} {account : String}
    {rules : List Rule} (h : m ∈ creditorMatches e account rules) : m ∈ rules :=
  mem_rules_of_mem_debitorMatches (mem_of_mem_filter_rules h)

/-- A transaction hitting the ambiguous branch with rules that set no
cdtr_acc: the creditor account becomes None and rendering raises. -/
def eC2 : EntrySt :=
  entryInit "2024-05-05" "2024-05-05" "5" "EUR" "Cafe" "Myself" [] (some "Assets:Bank")

/-- Two rules matching the debitor of eC2 (and its creditor by wildcard)
with no cdtr_acc entry. -/
def rulesC2 : List Rule := [[("dbtr", "Myself")], [("dbtr", "Myself")]]

/-- Claim C2 counterexample: resolution of eC2 against rulesC2 raises
(modelled as none) instead of producing a renderable entry, because the
matched rules carry no cdtr_acc, so creditor_acc is None and startswith on
it raises AttributeError. -/
theorem C2_raises_on_missing_cdtr_acc :
    (build_entry_string eC2 "giro" rulesC2 1).snd = none := by
  decide

/-- Claim C2 (amended): resolution never raises provided the default asset
account is configured as a plain (non-split) account string and every rule
names a plain cdtr_acc; without that, a None or malformed creditor-side
account reaching the formatter raises. -/
theorem C2_no_raise_amended (e : EntrySt) (account : String) (rules : List Rule)
    (ind : Nat) (d : String)
    (hd : e.def_asset_acc = some d)
    (hdp : pyStartsWith d "[[" = false)
    (hr : rules.all plainCdtrAcc = true) :
    ((build_entry_string e account rules ind).snd).isSome = true := by
  have hrule : ∀ m ∈ rules, ∃ c, ruleGet m "cdtr_acc" = some c
      ∧ pyStartsWith c "[[" = false :=
    fun m hm => plainCdtrAcc_spec m (List.all_eq_true.mp hr m hm)
  unfold build_entry_string
  cases hdm : debitorMatches e account rules with
  | nil => exact entry_template_isSome_plain _ ind d hd hdp
  | cons m tail =>
    cases tail with
    | nil =>
      have hmem : m ∈ rules :=
        mem_rules_of_mem_debitorMatches (hdm ▸ List.mem_singleton_self m)
      obtain ⟨c, hcr, hcp⟩ := hrule m hmem
      refine entry_template_isSome_plain _ ind c ?_ hcp
      show (ruleGet m "cdtr_acc").orElse (fun _ => e.def_asset_acc) = some c
      rw [hcr]
      rfl
    | cons m2 rest =>
      cases hcm : creditorMatches e account rules with
      | nil =>
        exact entry_template_isSome_plain
          { e with creditor_acc := some "Expenses:???", debitor_acc := e.def_asset_acc }
          ind "Expenses:???" rfl (by decide)
      | cons c1 ct =>
        cases ct with
        | nil =>
          have hmem : c1 ∈ rules :=
            mem_rules_of_mem_creditorMatches (hcm ▸ List.mem_singleton_self c1)
          obtain ⟨c, hcr, hcp⟩ := hrule c1 hmem
          exact entry_template_isSome_plain _ ind c hcr hcp
        | cons c2 cr =>
          have hall : ∀ m' ∈ (c1 :: c2 :: cr),
              (entry_template (resolveMatch e m') ind).isSome = true := by
            intro m' hm'
            have hmem : m' ∈ rules := mem_rules_of_mem_creditorMatches (hcm ▸ hm')
            obtain ⟨c, hcr, hcp⟩ := hrule m' hmem
            exact entry_template_isSome_plain _ ind c hcr hcp
          show (ambLoop e ind ";\n; Multiple matches. Pick one\n" (c1 :: c2 :: cr)).snd.isSome
            = true
          rw [ambLoop_spec (c1 :: c2 :: cr) e ind _ hall]
          rfl

/-- A transaction and rule set for the amended claim C2. -/
def eC2w : EntrySt :=
  entryInit "2024-05-06" "2024-05-06" "9" "EUR" "Cafe" "Myself" [] (some "Assets:Bank")

/-- A rule set where every rule names a plain cdtr_acc. -/
def rulesC2w : List Rule :=
  [[("dbtr", "Myself"), ("cdtr", "Cafe"), ("cdtr_acc", "Expenses:Eating")]]

/-- Witness for the amended claim C2 at a concrete transaction. -/
theorem C2_no_raise_amended_witness :
    ((build_entry_string eC2w "giro" rulesC2w 4).snd).isSome = true :=
  C2_no_raise_amended eC2w "giro" rulesC2w 4 "Assets:Bank" rfl (by decide) (by decide)

/-- An ambiguous transaction: debitor M, creditor S. -/
def eC7 : EntrySt :=
  entryInit "2024-01-02" "2024-01-02" "5" "EUR" "S" "M" [] (some "Assets:Bank")

/-- First candidate rule for eC7, with a plain creditor account. -/
def ruleC7a : Rule := [("dbtr", "M"), ("cdtr_acc", "Expenses:A")]

/-- Second candidate rule for eC7, with a split creditor account whose
sub-amounts do not total the transaction amount. -/
def ruleC7b : Rule := [("dbtr", "M"), ("cdtr_acc", "[['X', 1], ['Y', 2]]")]

/-- The ambiguous rule set for eC7. -/
def rulesC7 : List Rule := [ruleC7a, ruleC7b]

/-- Claim C7 counterexample: the ambiguous output has one posting group
per candidate, but consecutive groups are separated by a single newline
(no blank line occurs anywhere in it), the introductory comment reads
Multiple matches. Pick one rather than the claimed literal, and the second
group is not balanced. -/
theorem C7_ambiguous_output_counterexample :
    (build_entry_string eC7 "giro" rulesC7 1).snd
      = some (";\n; Multiple matches. Pick one\n2024-01-02 S\n Expenses:A EUR 5\n Assets:Bank EUR -5\n2024-01-02 S\n X EUR 1\n Y EUR 2\n Assets:Bank EUR -5\n")
    ∧ hasSub ("multiple matches, pick one".data)
        (((build_entry_string eC7 "giro" rulesC7 1).snd.getD "").data) = false
    ∧ hasSub ("\n\n".data)
        (((build_entry_string eC7 "giro" rulesC7 1).snd.getD "").data) = false
    ∧ postingSum (resolveMatch eC7 ruleC7b) = some (-2) := by
  refine ⟨by decide, by decide, by decide, ?_⟩
  have hep : entryPostings (resolveMatch eC7 ruleC7b)
      = some [("X", "1"), ("Y", "2"), ("Assets:Bank", "-5")] := by decide
  have p1 : parseAmt "1" = some ((1 : Nat) : ℚ) := rfl
  have p2 : parseAmt "2" = some ((2 : Nat) : ℚ) := rfl
  have p5 : parseAmt "-5" = some (-((5 : Nat) : ℚ)) := rfl
  unfold postingSum
  rw [hep]
  simp [amountsOf, p1, p2, p5]
  norm_num

/-- Claim C7 (amended): with at least two debitor matches of which at
least two also match the creditor, and provided every creditor-matching
rule resolves to a renderable creditor account (without that proviso the
loop raises mid-way and no output is produced), the output is the literal
comment followed by exactly one independently rendered posting group per
creditor-matching rule in rule-set order, each group followed by a single
newline. -/
theorem C7_ambiguous_output_amended (e : EntrySt) (account : String) (rules : List Rule)
    (ind : Nat)
    (hd : 2 ≤ (debitorMatches e account rules).length)
    (hc : 2 ≤ (creditorMatches e account rules).length)
    (hr : (creditorMatches e account rules).all
        (fun m => (entry_template (resolveMatch e m) ind).isSome) = true) :
    (build_entry_string e account rules ind).snd
      = some (";\n; Multiple matches. Pick one\n" ++
          concatStrs ((creditorMatches e account rules).map
            (fun m => ((entry_template (resolveMatch e m) ind).getD "") ++ "\n"))) := by
  rcases hdm : debitorMatches e account rules with _ | ⟨m1, _ | ⟨m2, rest⟩⟩
  · rw [hdm] at hd
    simp at hd
  · rw [hdm] at hd
    simp at hd
  · rcases hcm : creditorMatches e account rules with _ | ⟨c1, _ | ⟨c2, cr⟩⟩
    · rw [hcm] at hc
      simp at hc
    · rw [hcm] at hc
      simp at hc
    · have hall : ∀ m' ∈ (c1 :: c2 :: cr),
          (entry_template (resolveMatch e m') ind).isSome = true := by
        intro m' hm'
        simpa using List.all_eq_true.mp (hcm ▸ hr) m' hm'
      unfold build_entry_string
      rw [hdm, hcm]
      show (ambLoop e ind ";\n; Multiple matches. Pick one\n" (c1 :: c2 :: cr)).snd = _
      rw [ambLoop_spec (c1 :: c2 :: cr) e ind _ hall]

/-- An ambiguous transaction for the amended claim C7. -/
def eC7w : EntrySt :=
  entryInit "2024-06-01" "2024-06-01" "8" "EUR" "Shop" "Myself" [] (some "Assets:Bank")

/-- Two candidate rules with plain creditor accounts, both matching the
debitor and creditor of eC7w. -/
def rulesC7w : List Rule :=
  [[("dbtr", "Myself"), ("cdtr_acc", "Expenses:A")],
   [("dbtr", "Myself"), ("cdtr_acc", "Expenses:B")]]

/-- Witness for the amended claim C7 at a concrete transaction. -/
theorem C7_ambiguous_output_amended_witness :
    (build_entry_string eC7w "giro" rulesC7w 1).snd
      = some (";\n; Multiple matches. Pick one\n" ++
          concatStrs ((creditorMatches eC7w "giro" rulesC7w).map
            (fun m => ((entry_template (resolveMatch eC7w m) 1).getD "") ++ "\n"))) :=
  C7_ambiguous_output_amended eC7w "giro" rulesC7w 1 (by decide) (by decide) (by decide)
